import Mathlib

/-!
Verification of the `ra-data-treeql` data-provider (src/src/index.ts, the
`TreeQLDataProvider` class version, whose exported pieces are `formatFilter`,
`formatFilterArguments`, `formatParams`, `getURL` and the CRUD operations).

The TypeScript code is shallowly embedded:
* JavaScript runtime values are modelled by `JSVal` (numbers as `Int`: every
  number occurring in the repository and its tests is integral).
* JavaScript exceptions are modelled by `Except JSError`; the only error the
  repository itself raises is a `TypeError` with a message.
* The injected HTTP client is an oracle `Request → JSVal` giving the decoded
  JSON body of the response; each operation returns the list of requests it
  issued together with its (possibly failing) reshaped result.
* Platform string primitives (`String.prototype.slice` with the negative
  argument shapes used by the code, `URLSearchParams` serialization,
  `decodeURIComponent`) are embedded for well-formed input as produced by the
  provider; `decodeURIComponent` is total here, while JS would raise
  `URIError` on malformed percent sequences (which the provider never emits).
-/

set_option maxRecDepth 16384

/-- A JavaScript runtime value, as used by the data provider: primitives,
arrays and plain objects (an object is its ordered own-property list; objects
built by JS literals have pairwise distinct keys). -/
inductive JSVal where
  | undefined
  | null
  | bool (b : Bool)
  | num (n : Int)
  | str (s : String)
  | arr (elems : List JSVal)
  | obj (fields : List (String × JSVal))
deriving Repr

/-- JavaScript truthiness (`!!v`) of the modelled values. -/
def jsTruthy : JSVal → Bool
  | .undefined => false
  | .null => false
  | .bool b => b
  | .num n => n != 0
  | .str s => s != ""
  | .arr _ => true
  | .obj _ => true

mutual

/-- JavaScript `String(v)` / template-literal coercion: arrays stringify as
their elements joined by commas (with `null`/`undefined` elements becoming
empty), objects as `[object Object]`. -/
def jsTemplate : JSVal → String
  | .undefined => "undefined"
  | .null => "null"
  | .bool b => cond b ("true") ("false")
  | .num n => toString n
  | .str s => s
  | .obj _ => "[object Object]"
  | .arr xs => jsJoinList xs

/-- JavaScript `Array.prototype.join(",")` over modelled values. -/
def jsJoinList : List JSVal → String
  | [] => ""
  | [v] => jsElemStr v
  | v :: w :: rest => jsElemStr v ++ "," ++ jsJoinList (w :: rest)

/-- Element coercion used by `Array.prototype.join`: like `String(v)` except
that `null` and `undefined` become the empty string. -/
def jsElemStr : JSVal → String
  | .null => ""
  | .undefined => ""
  | .bool b => cond b ("true") ("false")
  | .num n => toString n
  | .str s => s
  | .obj _ => "[object Object]"
  | .arr xs => jsJoinList xs

end

/-- JavaScript array indexing `xs[i]`: out-of-range access yields `undefined`. -/
def jsIndex (xs : List JSVal) (i : Nat) : JSVal := xs.getD i .undefined

/-- `Array.isArray(v)`. -/
def isJSArray : JSVal → Bool
  | .arr _ => true
  | _ => false

/-- JavaScript property read `v[key]`: association lookup on objects,
`undefined` otherwise (the provider only reads properties off decoded JSON
objects). -/
def jsGet (v : JSVal) (key : String) : JSVal :=
  match v with
  | .obj fields =>
    match fields.find? (fun p => p.1 = key) with
    | some p => p.2
    | none => .undefined
  | _ => .undefined

/-- Setting `obj[key] = v` on an object literal under construction: an
existing key keeps its position and gets the new value, a new key is appended
(JS own-property order). -/
def jsSet (fields : List (String × JSVal)) (key : String) (v : JSVal) :
    List (String × JSVal) :=
  if fields.any (fun p => p.1 = key) then
    fields.map (fun p => if p.1 = key then (key, v) else p)
  else fields ++ [(key, v)]

/-- Object spread `{ ...base, ...extra }` (each operand having pairwise
distinct keys, as all JS object literals do). -/
def jsMerge (base extra : List (String × JSVal)) : List (String × JSVal) :=
  extra.foldl (fun acc p => jsSet acc p.1 p.2) base

/-- Whether a JSON field list still contains a field that `JSON.stringify`
emits (i.e. one whose value is not `undefined`). -/
def hasJsonField : List (String × JSVal) → Bool
  | [] => false
  | (_, .undefined) :: rest => hasJsonField rest
  | _ => true

/-- Minimal JSON string quoting (backslash, quote and the control characters
the provider's payloads can contain). -/
def jsonQuoteChar (c : Char) : String :=
  if c = '"' then "\\\""
  else if c = '\\' then "\\\\"
  else if c = Char.ofNat 10 then "\\n"
  else if c = Char.ofNat 13 then "\\r"
  else if c = Char.ofNat 9 then "\\t"
  else String.singleton c

/-- JSON string literal for `s`. -/
def jsonQuote (s : String) : String :=
  "\"" ++ String.join (s.data.map jsonQuoteChar) ++ "\""

mutual

/-- `JSON.stringify(v)` for the values the provider serializes (request
bodies, i.e. data objects/arrays; a top-level `undefined`, which JS turns
into the absence of a result, is rendered as `null` here and never arises). -/
def jsonStringify : JSVal → String
  | .undefined => "null"
  | .null => "null"
  | .bool b => cond b ("true") ("false")
  | .num n => toString n
  | .str s => jsonQuote s
  | .arr xs => "[" ++ jsonElems xs ++ "]"
  | .obj fs => "\x7b" ++ jsonFields fs ++ "\x7d"

/-- Comma-separated `JSON.stringify` of array elements (`undefined` elements
become `null`, as in JS). -/
def jsonElems : List JSVal → String
  | [] => ""
  | [v] =>
    match v with
    | .undefined => "null"
    | w => jsonStringify w
  | v :: w :: rest =>
    (match v with
     | .undefined => "null"
     | u => jsonStringify u) ++ "," ++ jsonElems (w :: rest)

/-- Comma-separated `JSON.stringify` of object fields, skipping fields whose
value is `undefined` (as JS does). -/
def jsonFields : List (String × JSVal) → String
  | [] => ""
  | (k, v) :: rest =>
    match v with
    | .undefined => jsonFields rest
    | w =>
      jsonQuote k ++ ":" ++ jsonStringify w ++
        (if hasJsonField rest then "," else "") ++ jsonFields rest

end

/-- Uppercase hexadecimal digit, as emitted by `URLSearchParams`. -/
def hexDigitChar (n : Nat) : Char :=
  if n < 10 then Char.ofNat (48 + n) else Char.ofNat (55 + n)

/-- Percent-encoding `%XX` of one byte. -/
def percentByte (b : UInt8) : String :=
  "%" ++ String.singleton (hexDigitChar (b.toNat / 16)) ++
    String.singleton (hexDigitChar (b.toNat % 16))

/-- `application/x-www-form-urlencoded` encoding of one character, as done by
`URLSearchParams.toString`: ASCII alphanumerics and `*-._` are kept, space
becomes `+`, everything else is the percent-encoding of its UTF-8 bytes. -/
def formEncodeChar (c : Char) : String :=
  if c.isAlphanum ∨ c = '*' ∨ c = '-' ∨ c = '.' ∨ c = '_' then String.singleton c
  else if c = ' ' then "+"
  else String.join ((String.utf8EncodeChar c).map percentByte)

/-- `application/x-www-form-urlencoded` encoding of a string. -/
def formEncode (s : String) : String :=
  String.join (s.data.map formEncodeChar)

/-- `new URLSearchParams(...).toString()` for an ordered pair list (keys and
values already coerced to strings). -/
def urlSearchParamsToString (pairs : List (String × String)) : String :=
  String.intercalate ("&") (pairs.map (fun p => formEncode p.1 ++ "=" ++ formEncode p.2))

/-- Value of a hexadecimal digit character, if it is one. -/
def hexDigitVal? (c : Char) : Option Nat :=
  if '0' ≤ c ∧ c ≤ '9' then some (c.toNat - 48)
  else if 'a' ≤ c ∧ c ≤ 'f' then some (c.toNat - 87)
  else if 'A' ≤ c ∧ c ≤ 'F' then some (c.toNat - 55)
  else none

/-- First phase of `decodeURIComponent`: turn `%XX` escapes into bytes and
other characters into their UTF-8 bytter sequences. A `%` not followed by two
hex digits is kept literally (JS raises `URIError` there; the provider never
produces such input). -/
def percentDecodeBytes : List Char → List Nat
  | [] => []
  | '%' :: h1 :: h2 :: rest =>
    match hexDigitVal? h1, hexDigitVal? h2 with
    | some a, some b => (16 * a + b) :: percentDecodeBytes rest
    | _, _ => ((String.utf8EncodeChar '%').map (fun b => b.toNat)) ++
        percentDecodeBytes (h1 :: h2 :: rest)
  | c :: rest => ((String.utf8EncodeChar c).map (fun b => b.toNat)) ++ percentDecodeBytes rest

/-- Second phase of `decodeURIComponent`: UTF-8 decoding of the byte stream
(truncated or malformed sequences, which the provider never produces, decode
to U+FFFD). -/
def utf8DecodeChars : List Nat → List Char
  | [] => []
  | b :: rest =>
    if b < 128 then Char.ofNat b :: utf8DecodeChars rest
    else if b < 224 then
      match rest with
      | b2 :: rest2 => Char.ofNat ((b % 32) * 64 + (b2 % 64)) :: utf8DecodeChars rest2
      | [] => [Char.ofNat 65533]
    else if b < 240 then
      match rest with
      | b2 :: b3 :: rest3 =>
        Char.ofNat ((b % 16) * 4096 + (b2 % 64) * 64 + (b3 % 64)) :: utf8DecodeChars rest3
      | _ => [Char.ofNat 65533]
    else
      match rest with
      | b2 :: b3 :: b4 :: rest4 =>
        Char.ofNat ((b % 8) * 262144 + (b2 % 64) * 4096 + (b3 % 64) * 64 + (b4 % 64)) ::
          utf8DecodeChars rest4
      | _ => [Char.ofNat 65533]

/-- JavaScript `decodeURIComponent`, for the well-formed strings the provider
feeds it. -/
def decodeURIComponent (s : String) : String :=
  ⟨utf8DecodeChars (percentDecodeBytes s.data)⟩

/-- JS `s.slice(-n)` (`n > 0`): the last `n` characters (the whole string when
it is shorter than `n`). -/
def jsSliceNegFrom (s : String) (n : Nat) : String :=
  ⟨s.data.drop (s.data.length - n)⟩

/-- JS `s.slice(-a, -b)` for `a ≥ b > 0`. -/
def jsSliceNegRange (s : String) (a b : Nat) : String :=
  ⟨(s.data.drop (s.data.length - a)).take ((s.data.length - b) - (s.data.length - a))⟩

/-- JS `s.slice(0, -n)` (`n > 0`): the string with its last `n` characters
removed. -/
def jsSliceToNeg (s : String) (n : Nat) : String :=
  ⟨s.data.take (s.data.length - n)⟩

/-- The JavaScript error values the provider can raise. -/
inductive JSError where
  | typeError (msg : String)
deriving Repr, DecidableEq

/-- `filterOperators` of src/src/index.ts: the 11 two-character TreeQL filter
operator codes. -/
def filterOperators : List String :=
  ["cs", "sw", "ew", "eq", "lt", "le", "ge", "gt", "bt", "in", "is"]

/-- `searchOperator`: react-admin's default full-text search key. -/
def searchOperator : String := "q"

/-- `APISearchParam`: TreeQL's search query parameter name. -/
def APISearchParam : String := "search"

/-- `APIFilterParam`: TreeQL's filter query parameter name. -/
def APIFilterParam : String := "filter"

/-- `isValidFilterOperator` of src/src/index.ts (`filterOperators.includes`). -/
def isValidFilterOperator (value : String) : Bool :=
  filterOperators.contains value

/-- `formatFilterArguments` of src/src/index.ts: per-operator formatting of a
filter value; `bt`/`in` demand arrays (`TypeError` otherwise), `is` takes no
argument (returns JS `null`), every other operator passes the value through. -/
def formatFilterArguments (operator : String) (value : JSVal) : Except JSError JSVal :=
  if operator = "bt" then
    match value with
    | .arr xs =>
      .ok (.str (jsTemplate (jsIndex xs 0) ++ "," ++ jsTemplate (jsIndex xs 1)))
    | _ => .error (.typeError ("Array expected as filter value for filter type \"between\" (bt)"))
  else if operator = "in" then
    match value with
    | .arr xs => .ok (.str (jsJoinList xs))
    | _ => .error (.typeError ("Array expected as filter value for filter type \"in\""))
  else if operator = "is" then
    .ok .null
  else
    .ok value

/-- The `[field, op, args].filter(v => !!v).join(",")` composition used by
`formatFilter`: parts that are JS-falsy are dropped before the comma join. -/
def joinTruthy (parts : List JSVal) : String :=
  jsJoinList (parts.filter jsTruthy)

/-- The body of `formatFilter`'s `Object.entries(filter).map` callback in
src/src/index.ts: one filter entry becomes one `(paramName, paramValue)`
pair. The search key is routed verbatim to the search parameter; a key whose
last two characters are a known operator code preceded by `_` (resp. `_n`)
becomes a stripped-field clause (resp. a negated one); any other key is used
verbatim with the implicit `eq` operator. -/
def formatFilterEntry (key : String) (value : JSVal) : Except JSError (String × JSVal) :=
  if key = searchOperator then
    .ok (APISearchParam, value)
  else if jsSliceNegRange key 3 2 = "_" ∧ isValidFilterOperator (jsSliceNegFrom key 2) = true then
    (formatFilterArguments (jsSliceNegFrom key 2) value).map
      (fun fv =>
        (APIFilterParam,
          .str (joinTruthy [.str (jsSliceToNeg key 3), .str (jsSliceNegFrom key 2), fv])))
  else if jsSliceNegRange key 4 2 = "_n" ∧ isValidFilterOperator (jsSliceNegFrom key 2) = true then
    (formatFilterArguments (jsSliceNegFrom key 2) value).map
      (fun fv =>
        (APIFilterParam,
          .str (joinTruthy
            [.str (jsSliceToNeg key 4), .str (("n") ++ jsSliceNegFrom key 2), fv])))
  else
    .ok (APIFilterParam, .str (key ++ ",eq," ++ jsTemplate value))

/-- `formatFilter` of src/src/index.ts: `Object.entries(filter).map(...)`,
with a thrown `TypeError` aborting the whole map (object entries are modelled
as the ordered association list of the filter object). -/
def formatFilter : List (String × JSVal) → Except JSError (List (String × JSVal))
  | [] => .ok []
  | (k, v) :: rest =>
    match formatFilterEntry k v with
    | .error e => .error e
    | .ok p =>
      match formatFilter rest with
      | .error e => .error e
      | .ok ps => .ok (p :: ps)

/-- The `IParams` bag handed to `getURL` in src/src/index.ts. `rest` holds the
plain string parameters (`order`, `page` and any extra keys) in object
insertion order; `filter` and `meta` are destructured away by `formatParams`,
`id`/`ids` by `getURL`. -/
structure IParams where
  id : Option JSVal := none
  ids : Option (List JSVal) := none
  rest : List (String × String) := []
  filter : Option (List (String × JSVal)) := none
  meta : List (String × JSVal) := []

/-- Query-pair assembly inside `formatParams`: `new URLSearchParams(rest)`,
then the compiled filter pairs appended, then the `meta` entries except the
reserved keys `order`/`page`/`filter` (values coerced with `String(...)`);
the serialized string is given one `decodeURIComponent` pass and prefixed
with `?` unless empty. -/
def assembleParams (rest : List (String × String)) (fpairs : List (String × JSVal))
    (meta : List (String × JSVal)) : String :=
  let pairs := rest ++ fpairs.map (fun p => (p.1, jsTemplate p.2)) ++
    (meta.filter (fun p => !((["order", "page", "filter"] : List String).contains p.1))).map
      (fun p => (p.1, jsTemplate p.2))
  let s := urlSearchParamsToString pairs
  if s = "" then "" else "?" ++ decodeURIComponent s

/-- `formatParams` of src/src/index.ts: destructures `filter` and `meta` out
of the parameter bag (a missing `filter` skips filter compilation, as the
code's `filter && ...` guard does) and assembles the query string; a
`TypeError` thrown by `formatFilter` propagates. -/
def formatParams (rest : List (String × String)) (filter : Option (List (String × JSVal)))
    (meta : List (String × JSVal)) : Except JSError String :=
  match filter with
  | none => .ok (assembleParams rest [] meta)
  | some f => (formatFilter f).map (fun fpairs => assembleParams rest fpairs meta)

/-- The `TreeQLDataProvider` constructor's base-URL normalization:
`_apiUrl.endsWith("/") ? _apiUrl.slice(0, -1) : _apiUrl` (a nonempty string
ends with `/` exactly when its last-character slice is `"/"`). -/
def normalizeApiUrl (s : String) : String :=
  if jsSliceNegFrom s 1 = "/" then jsSliceToNeg s 1 else s

/-- One HTTP request as handed to the injected `httpClient`: the URL and the
optional `{ method, body }` options (a plain `httpClient(url)` call is a GET
with no body). -/
structure Request where
  url : String
  method : String
  body : Option String
deriving Repr, DecidableEq

/-- A plain `httpClient(url)` call. -/
def httpGet (url : String) : Request := ⟨url, ("GET"), none⟩

namespace TreeQLDataProvider

/-- `getURL` of src/src/index.ts: base URL, `/records/<resource>`, then the
record selector `/<id>` when `id` is truthy, else `/<ids joined by commas>`
when `ids` is present, else nothing, then the formatted query string. -/
def getURL (apiUrl resource : String) (params : IParams) : Except JSError String :=
  let record :=
    match params.id with
    | some idv =>
      if jsTruthy idv then "/" ++ jsTemplate idv
      else
        match params.ids with
        | some l => "/" ++ jsJoinList l
        | none => ""
    | none =>
      match params.ids with
      | some l => "/" ++ jsJoinList l
      | none => ""
  (formatParams params.rest params.filter params.meta).map
    (fun q => apiUrl ++ "/records/" ++ resource ++ record ++ q)

/-- `getList`: builds the list URL from sort, pagination, the raw filter
object and `meta`, performs one GET and reshapes the body into
`(records, results)` (the `{ data, total }` envelope). -/
def getList (apiUrl resource : String) (fieldName orderName : String) (page perPage : Int)
    (filter meta : List (String × JSVal)) (http : Request → JSVal) :
    List Request × Except JSError (JSVal × JSVal) :=
  match getURL apiUrl resource
      { rest := [(("order"), fieldName ++ "," ++ orderName),
                 (("page"), toString page ++ "," ++ toString perPage)],
        filter := some filter, meta := meta } with
  | .error e => ([], .error e)
  | .ok url =>
    ([httpGet url],
     .ok (jsGet (http (httpGet url)) ("records"), jsGet (http (httpGet url)) ("results")))

/-- `getOne`: one GET of the record URL, body returned as `data`. -/
def getOne (apiUrl resource : String) (idv : JSVal) (meta : List (String × JSVal))
    (http : Request → JSVal) : List Request × Except JSError JSVal :=
  match getURL apiUrl resource { id := some idv, meta := meta } with
  | .error e => ([], .error e)
  | .ok url => ([httpGet url], .ok (http (httpGet url)))

/-- `getManyReference`: like `getList` but with `{ ...filter, [target]: id }`
as the filter object. -/
def getManyReference (apiUrl resource : String) (idv : JSVal) (target : String)
    (fieldName orderName : String) (page perPage : Int)
    (filter meta : List (String × JSVal)) (http : Request → JSVal) :
    List Request × Except JSError (JSVal × JSVal) :=
  match getURL apiUrl resource
      { rest := [(("order"), fieldName ++ "," ++ orderName),
                 (("page"), toString page ++ "," ++ toString perPage)],
        filter := some (jsMerge filter [(target, idv)]), meta := meta } with
  | .error e => ([], .error e)
  | .ok url =>
    ([httpGet url],
     .ok (jsGet (http (httpGet url)) ("records"), jsGet (http (httpGet url)) ("results")))

/-- `update`: one PUT of the JSON-serialized changed fields to the record URL;
the result record `{ id, ...previousData, ...data }` is synthesized
client-side without reading the response. -/
def update (apiUrl resource : String) (idv : JSVal) (data previousData : List (String × JSVal))
    (meta : List (String × JSVal)) (http : Request → JSVal) :
    List Request × Except JSError (List (String × JSVal)) :=
  match getURL apiUrl resource { id := some idv, meta := meta } with
  | .error e => ([], .error e)
  | .ok url =>
    let req : Request := ⟨url, ("PUT"), some (jsonStringify (.obj data))⟩
    let _ := http req
    ([req], .ok (jsMerge (jsMerge [(("id"), idv)] previousData) data))

/-- `delete`: one DELETE of the record URL; the result record
`{ id, ...previousData }` is synthesized client-side without reading the
response. -/
def delete (apiUrl resource : String) (idv : JSVal) (previousData : List (String × JSVal))
    (meta : List (String × JSVal)) (http : Request → JSVal) :
    List Request × Except JSError (List (String × JSVal)) :=
  match getURL apiUrl resource { id := some idv, meta := meta } with
  | .error e => ([], .error e)
  | .ok url =>
    let req : Request := ⟨url, ("DELETE"), none⟩
    let _ := http req
    ([req], .ok (jsMerge [(("id"), idv)] previousData))

end TreeQLDataProvider

theorem ops_length_two : ∀ o ∈ filterOperators, o.data.length = 2 := by decide

theorem isValid_of_mem {o : String} (h : o ∈ filterOperators) :
    isValidFilterOperator o = true := by
  simpa [isValidFilterOperator] using h

theorem mem_of_isValid {o : String} (h : isValidFilterOperator o = true) :
    o ∈ filterOperators := by
  simpa [isValidFilterOperator] using h

theorem slice_from_append (p s : String) :
    jsSliceNegFrom (p ++ s) s.data.length = s := by
  apply String.ext
  show ((p ++ s).data).drop ((p ++ s).data.length - s.data.length) = s.data
  rw [String.data_append, List.length_append]
  have h : p.data.length + s.data.length - s.data.length = p.data.length := by omega
  rw [h, List.drop_left]

theorem slice_range_append (p m s : String) :
    jsSliceNegRange (p ++ m ++ s) (m.data.length + s.data.length) s.data.length = m := by
  apply String.ext
  show ((p ++ m ++ s).data.drop
      ((p ++ m ++ s).data.length - (m.data.length + s.data.length))).take
      (((p ++ m ++ s).data.length - s.data.length) -
        ((p ++ m ++ s).data.length - (m.data.length + s.data.length))) = m.data
  rw [String.data_append, String.data_append, List.length_append, List.length_append]
  have h1 : p.data.length + m.data.length + s.data.length - (m.data.length + s.data.length)
      = p.data.length := by omega
  rw [h1]
  have h2 : p.data.length + m.data.length + s.data.length - s.data.length - p.data.length
      = m.data.length := by omega
  rw [h2, List.append_assoc, List.drop_left, List.take_left]

theorem slice_to_append (p s : String) :
    jsSliceToNeg (p ++ s) s.data.length = p := by
  apply String.ext
  show ((p ++ s).data).take ((p ++ s).data.length - s.data.length) = p.data
  rw [String.data_append, List.length_append]
  have h : p.data.length + s.data.length - s.data.length = p.data.length := by omega
  rw [h, List.take_left]

theorem slice_range_split3 (k : String) (h : jsSliceNegRange k 3 2 = "_") :
    k = jsSliceToNeg k 3 ++ "_" ++ jsSliceNegFrom k 2 := by
  have hd : (k.data.drop (k.data.length - 3)).take
      ((k.data.length - 2) - (k.data.length - 3)) = ['_'] := congrArg String.data h
  have hn : 3 ≤ k.data.length := by
    have hlen := congrArg List.length hd
    rw [List.length_take, List.length_drop] at hlen
    have hone : (['_'] : List Char).length = 1 := rfl
    rw [hone] at hlen
    omega
  have h1 : (k.data.length - 2) - (k.data.length - 3) = 1 := by omega
  rw [h1] at hd
  apply String.ext
  rw [String.data_append, String.data_append]
  show k.data = k.data.take (k.data.length - 3) ++ ['_'] ++ k.data.drop (k.data.length - 2)
  have hsplit : k.data.drop (k.data.length - 3) =
      ['_'] ++ k.data.drop (k.data.length - 2) := by
    conv_lhs => rw [← List.take_append_drop 1 (k.data.drop (k.data.length - 3))]
    rw [hd, List.drop_drop]
    have : k.data.length - 3 + 1 = k.data.length - 2 := by omega
    rw [this]
  conv_lhs => rw [← List.take_append_drop (k.data.length - 3) k.data, hsplit]
  rw [List.append_assoc]

theorem slice_range_split4 (k : String) (h : jsSliceNegRange k 4 2 = "_n") :
    k = jsSliceToNeg k 4 ++ "_n" ++ jsSliceNegFrom k 2 := by
  have hd : (k.data.drop (k.data.length - 4)).take
      ((k.data.length - 2) - (k.data.length - 4)) = ['_', 'n'] := congrArg String.data h
  have hn : 4 ≤ k.data.length := by
    have hlen := congrArg List.length hd
    rw [List.length_take, List.length_drop] at hlen
    have htwo : (['_', 'n'] : List Char).length = 2 := rfl
    rw [htwo] at hlen
    omega
  have h1 : (k.data.length - 2) - (k.data.length - 4) = 2 := by omega
  rw [h1] at hd
  apply String.ext
  rw [String.data_append, String.data_append]
  show k.data = k.data.take (k.data.length - 4) ++ ['_', 'n'] ++
    k.data.drop (k.data.length - 2)
  have hsplit : k.data.drop (k.data.length - 4) =
      ['_', 'n'] ++ k.data.drop (k.data.length - 2) := by
    conv_lhs => rw [← List.take_append_drop 2 (k.data.drop (k.data.length - 4))]
    rw [hd, List.drop_drop]
    have : k.data.length - 4 + 2 = k.data.length - 2 := by omega
    rw [this]
  conv_lhs => rw [← List.take_append_drop (k.data.length - 4) k.data, hsplit]
  rw [List.append_assoc]

theorem append_op_ne_q (f o : String) (h2 : o.data.length = 2) : f ++ "_" ++ o ≠ "q" := by
  intro he
  have hl := congrArg (fun t => t.data.length) he
  simp only [String.data_append, List.length_append] at hl
  have e1 : ("_" : String).data.length = 1 := rfl
  have e2 : ("q" : String).data.length = 1 := rfl
  rw [e1, e2] at hl
  omega

theorem append_nop_ne_q (f o : String) (h2 : o.data.length = 2) : f ++ "_n" ++ o ≠ "q" := by
  intro he
  have hl := congrArg (fun t => t.data.length) he
  simp only [String.data_append, List.length_append] at hl
  have e1 : ("_n" : String).data.length = 2 := rfl
  have e2 : ("q" : String).data.length = 1 := rfl
  rw [e1, e2] at hl
  omega

theorem formatFilterEntry_op_suffix (f o : String) (v : JSVal) (ho : o ∈ filterOperators) :
    formatFilterEntry (f ++ "_" ++ o) v =
      (formatFilterArguments o v).map
        (fun fv => (APIFilterParam, JSVal.str (joinTruthy [.str f, .str o, fv]))) := by
  have h2 : o.data.length = 2 := ops_length_two o ho
  have hs2 : jsSliceNegFrom (f ++ "_" ++ o) 2 = o := by
    have h := slice_from_append (f ++ "_") o
    rwa [h2] at h
  have hs32 : jsSliceNegRange (f ++ "_" ++ o) 3 2 = "_" := by
    have h := slice_range_append f ("_") o
    have e1 : ("_" : String).data.length = 1 := rfl
    rw [e1, h2] at h
    exact h
  have hto : jsSliceToNeg (f ++ "_" ++ o) 3 = f := by
    have h := slice_to_append f (("_") ++ o)
    have e : (("_" : String) ++ o).data.length = 3 := by
      rw [String.data_append, List.length_append]
      have e1 : ("_" : String).data.length = 1 := rfl
      rw [e1, h2]
    rw [e, ← String.append_assoc] at h
    exact h
  unfold formatFilterEntry
  rw [if_neg (show ¬(f ++ "_" ++ o = searchOperator) from append_op_ne_q f o h2),
    if_pos ⟨hs32, by rw [hs2]; exact isValid_of_mem ho⟩, hs2, hto]

theorem formatFilterEntry_nop_suffix (f o : String) (v : JSVal) (ho : o ∈ filterOperators) :
    formatFilterEntry (f ++ "_n" ++ o) v =
      (formatFilterArguments o v).map
        (fun fv => (APIFilterParam, JSVal.str (joinTruthy [.str f, .str (("n") ++ o), fv]))) := by
  have h2 : o.data.length = 2 := ops_length_two o ho
  have hs2 : jsSliceNegFrom (f ++ "_n" ++ o) 2 = o := by
    have h := slice_from_append (f ++ "_n") o
    rwa [h2] at h
  have hbase : f ++ "_n" = (f ++ "_") ++ "n" := by
    rw [String.append_assoc, (by decide : ("_" : String) ++ "n" = "_n")]
  have hregroup : f ++ "_n" ++ o = (f ++ "_") ++ "n" ++ o :=
    congrArg (fun t => t ++ o) hbase
  have hs32 : jsSliceNegRange (f ++ "_n" ++ o) 3 2 = "n" := by
    have h := slice_range_append (f ++ "_") ("n") o
    have e1 : ("n" : String).data.length = 1 := rfl
    rw [e1, h2] at h
    rw [hregroup]
    exact h
  have hne1 : ¬(jsSliceNegRange (f ++ "_n" ++ o) 3 2 = "_" ∧
      isValidFilterOperator (jsSliceNegFrom (f ++ "_n" ++ o) 2) = true) := by
    intro hc
    rw [hs32] at hc
    exact absurd hc.1 (by decide)
  have hs42 : jsSliceNegRange (f ++ "_n" ++ o) 4 2 = "_n" := by
    have h := slice_range_append f ("_n") o
    have e1 : ("_n" : String).data.length = 2 := rfl
    rw [e1, h2] at h
    exact h
  have hto : jsSliceToNeg (f ++ "_n" ++ o) 4 = f := by
    have h := slice_to_append f (("_n") ++ o)
    have e : (("_n" : String) ++ o).data.length = 4 := by
      rw [String.data_append, List.length_append]
      have e1 : ("_n" : String).data.length = 2 := rfl
      rw [e1, h2]
    rw [e, ← String.append_assoc] at h
    exact h
  unfold formatFilterEntry
  rw [if_neg (show ¬(f ++ "_n" ++ o = searchOperator) from append_nop_ne_q f o h2),
    if_neg hne1, if_pos ⟨hs42, by rw [hs2]; exact isValid_of_mem ho⟩, hs2, hto]

theorem formatFilterEntry_default (k : String) (v : JSVal) (hq : k ≠ "q")
    (h1 : ¬∃ f o, o ∈ filterOperators ∧ k = f ++ "_" ++ o)
    (h2 : ¬∃ f o, o ∈ filterOperators ∧ k = f ++ "_n" ++ o) :
    formatFilterEntry k v = .ok (APIFilterParam, .str (k ++ ",eq," ++ jsTemplate v)) := by
  have hc1 : ¬(jsSliceNegRange k 3 2 = "_" ∧
      isValidFilterOperator (jsSliceNegFrom k 2) = true) := by
    rintro ⟨ha, hb⟩
    exact h1 ⟨jsSliceToNeg k 3, jsSliceNegFrom k 2, mem_of_isValid hb, slice_range_split3 k ha⟩
  have hc2 : ¬(jsSliceNegRange k 4 2 = "_n" ∧
      isValidFilterOperator (jsSliceNegFrom k 2) = true) := by
    rintro ⟨ha, hb⟩
    exact h2 ⟨jsSliceToNeg k 4, jsSliceNegFrom k 2, mem_of_isValid hb, slice_range_split4 k ha⟩
  unfold formatFilterEntry
  rw [if_neg (show ¬(k = searchOperator) from hq), if_neg hc1, if_neg hc2]

theorem formatFilter_append (xs ys : List (String × JSVal)) :
    formatFilter (xs ++ ys) =
      match formatFilter xs with
      | .error e => .error e
      | .ok a =>
        match formatFilter ys with
        | .error e => .error e
        | .ok b => .ok (a ++ b) := by
  induction xs with
  | nil =>
    show formatFilter ys = _
    cases formatFilter ys <;> rfl
  | cons hd tl ih =>
    obtain ⟨k, v⟩ := hd
    show formatFilter ((k, v) :: (tl ++ ys)) = _
    simp only [formatFilter]
    rw [ih]
    cases formatFilterEntry k v <;> cases formatFilter tl <;> cases formatFilter ys <;> rfl

theorem formatFilterArguments_is (v : JSVal) : formatFilterArguments ("is") v = .ok .null := rfl

theorem formatFilterArguments_bt_nonarray (v : JSVal) (hv : isJSArray v = false) :
    formatFilterArguments ("bt") v =
      .error (.typeError ("Array expected as filter value for filter type \"between\" (bt)")) := by
  cases v <;> first | rfl | simp [isJSArray] at hv

theorem formatFilterArguments_in_nonarray (v : JSVal) (hv : isJSArray v = false) :
    formatFilterArguments ("in") v =
      .error (.typeError ("Array expected as filter value for filter type \"in\"")) := by
  cases v <;> first | rfl | simp [isJSArray] at hv

theorem formatFilterArguments_passthrough (op : String) (v : JSVal)
    (h1 : op ≠ "bt") (h2 : op ≠ "in") (h3 : op ≠ "is") :
    formatFilterArguments op v = .ok v := by
  unfold formatFilterArguments
  rw [if_neg h1, if_neg h2, if_neg h3]

theorem jsTruthy_str_ne (s : String) (h : s ≠ "") : jsTruthy (.str s) = true := by
  simp [jsTruthy, h]

theorem jsElemStr_truthy (v : JSVal) (h : jsTruthy v = true) : jsElemStr v = jsTemplate v := by
  cases v <;> simp_all [jsTruthy, jsElemStr, jsTemplate]

theorem joinTruthy_three_truthy (f o : String) (v : JSVal) (hf : f ≠ "") (ho : o ≠ "")
    (hv : jsTruthy v = true) :
    joinTruthy [.str f, .str o, v] = f ++ "," ++ o ++ "," ++ jsTemplate v := by
  unfold joinTruthy
  rw [List.filter_cons_of_pos (jsTruthy_str_ne f hf),
    List.filter_cons_of_pos (jsTruthy_str_ne o ho),
    List.filter_cons_of_pos hv, List.filter_nil]
  show f ++ "," ++ (o ++ "," ++ jsElemStr v) = _
  rw [jsElemStr_truthy v hv]
  simp [String.append_assoc]

theorem joinTruthy_three_falsy (f o : String) (v : JSVal) (hf : f ≠ "") (ho : o ≠ "")
    (hv : jsTruthy v = false) :
    joinTruthy [.str f, .str o, v] = f ++ "," ++ o := by
  unfold joinTruthy
  rw [List.filter_cons_of_pos (jsTruthy_str_ne f hf),
    List.filter_cons_of_pos (jsTruthy_str_ne o ho),
    List.filter_cons_of_neg (by simp [hv]), List.filter_nil]
  rfl

theorem formatFilterEntry_bt_error (f : String) (v : JSVal) (hv : isJSArray v = false) :
    formatFilterEntry (f ++ "_bt") v =
      .error (.typeError ("Array expected as filter value for filter type \"between\" (bt)")) := by
  have hk : f ++ "_bt" = f ++ "_" ++ "bt" := by
    rw [String.append_assoc, (by decide : ("_" : String) ++ "bt" = "_bt")]
  rw [hk, formatFilterEntry_op_suffix f ("bt") v (by decide),
    formatFilterArguments_bt_nonarray v hv]
  rfl

theorem formatFilterEntry_nbt_error (f : String) (v : JSVal) (hv : isJSArray v = false) :
    formatFilterEntry (f ++ "_nbt") v =
      .error (.typeError ("Array expected as filter value for filter type \"between\" (bt)")) := by
  have hk : f ++ "_nbt" = f ++ "_n" ++ "bt" := by
    rw [String.append_assoc, (by decide : ("_n" : String) ++ "bt" = "_nbt")]
  rw [hk, formatFilterEntry_nop_suffix f ("bt") v (by decide),
    formatFilterArguments_bt_nonarray v hv]
  rfl

theorem formatFilterEntry_in_error (f : String) (v : JSVal) (hv : isJSArray v = false) :
    formatFilterEntry (f ++ "_in") v =
      .error (.typeError ("Array expected as filter value for filter type \"in\"")) := by
  have hk : f ++ "_in" = f ++ "_" ++ "in" := by
    rw [String.append_assoc, (by decide : ("_" : String) ++ "in" = "_in")]
  rw [hk, formatFilterEntry_op_suffix f ("in") v (by decide),
    formatFilterArguments_in_nonarray v hv]
  rfl

theorem formatFilterEntry_nin_error (f : String) (v : JSVal) (hv : isJSArray v = false) :
    formatFilterEntry (f ++ "_nin") v =
      .error (.typeError ("Array expected as filter value for filter type \"in\"")) := by
  have hk : f ++ "_nin" = f ++ "_n" ++ "in" := by
    rw [String.append_assoc, (by decide : ("_n" : String) ++ "in" = "_nin")]
  rw [hk, formatFilterEntry_nop_suffix f ("in") v (by decide),
    formatFilterArguments_in_nonarray v hv]
  rfl

theorem formatFilter_error_at (pre : List (String × JSVal)) (k : String) (v : JSVal)
    (post : List (String × JSVal)) (l : List (String × JSVal)) (e : JSError)
    (hpre : formatFilter pre = .ok l) (hk : formatFilterEntry k v = .error e) :
    formatFilter (pre ++ (k, v) :: post) = .error e := by
  rw [formatFilter_append, hpre]
  simp [formatFilter, hk]

theorem jsGet_obj_absent (fields : List (String × JSVal)) (key : String)
    (h : ∀ p ∈ fields, p.1 ≠ key) : jsGet (.obj fields) key = .undefined := by
  have hf : fields.find? (fun p => p.1 = key) = none := by
    rw [List.find?_eq_none]
    intro x hx
    simpa using h x hx
  simp [jsGet, hf]

theorem getURL_truthy_id (apiUrl resource : String) (idv : JSVal)
    (m : List (String × JSVal)) (h : jsTruthy idv = true) :
    TreeQLDataProvider.getURL apiUrl resource { id := some idv, meta := m } =
      .ok (apiUrl ++ "/records/" ++ resource ++ ("/" ++ jsTemplate idv) ++
        assembleParams [] [] m) := by
  simp [TreeQLDataProvider.getURL, formatParams, h, Except.map]

theorem getURL_falsy_id (apiUrl resource : String) (idv : JSVal)
    (m : List (String × JSVal)) (h : jsTruthy idv = false) :
    TreeQLDataProvider.getURL apiUrl resource { id := some idv, meta := m } =
      .ok (apiUrl ++ "/records/" ++ resource ++ assembleParams [] [] m) := by
  simp [TreeQLDataProvider.getURL, formatParams, h, Except.map]

/-- Claim C1: for every filter entry whose key is not the search key `q`, a
key of shape `<field>_<op>` with `<op>` in the 11-operator vocabulary is
compiled to a filter pair whose clause is built from the stripped field name
`<field>` (the key minus its last 3 characters), the operator code and the
per-operator formatted value; a key of shape `<field>_n<op>` is compiled the
same way with the field equal to the key minus its last 4 characters and the
operator code prefixed with `n`; every other key — including near-miss
suffixes such as `_xy` or `_nxy` — is emitted verbatim as
`(filter, "<key>,eq,<value>")`. (The clause assembly `joinTruthy` is the
code's `[field, op, args].filter(v => !!v).join(",")`; how the value
component itself is rendered is the subject of claims C3 and C4.) -/
theorem c1_suffix_classification :
    (∀ (fieldName opcode : String) (v : JSVal), opcode ∈ filterOperators →
      formatFilterEntry (fieldName ++ "_" ++ opcode) v =
        (formatFilterArguments opcode v).map
          (fun fv => (APIFilterParam, JSVal.str (joinTruthy [.str fieldName, .str opcode, fv])))) ∧
    (∀ (fieldName opcode : String) (v : JSVal), opcode ∈ filterOperators →
      formatFilterEntry (fieldName ++ "_n" ++ opcode) v =
        (formatFilterArguments opcode v).map
          (fun fv =>
            (APIFilterParam,
              JSVal.str (joinTruthy [.str fieldName, .str (("n") ++ opcode), fv])))) ∧
    (∀ (k : String) (v : JSVal), k ≠ "q" →
      (¬ ∃ fieldName opcode, opcode ∈ filterOperators ∧ k = fieldName ++ "_" ++ opcode) →
      (¬ ∃ fieldName opcode, opcode ∈ filterOperators ∧ k = fieldName ++ "_n" ++ opcode) →
      formatFilterEntry k v = .ok (APIFilterParam, .str (k ++ ",eq," ++ jsTemplate v))) :=
  ⟨formatFilterEntry_op_suffix, formatFilterEntry_nop_suffix, formatFilterEntry_default⟩

/-- Witness for C1: the three branches at the concrete keys `comment_cs`,
`comment_nge` and `comment_xy` with value `4`. -/
theorem c1_suffix_classification_witness :
    ((("cs") : String) ∈ filterOperators ∧
      formatFilterEntry (("comment") ++ "_" ++ "cs") (.num 4) =
        (formatFilterArguments ("cs") (.num 4)).map
          (fun fv => (APIFilterParam, JSVal.str (joinTruthy [.str ("comment"), .str ("cs"), fv])))) ∧
    ((("ge") : String) ∈ filterOperators ∧
      formatFilterEntry (("comment") ++ "_n" ++ "ge") (.num 4) =
        (formatFilterArguments ("ge") (.num 4)).map
          (fun fv =>
            (APIFilterParam,
              JSVal.str (joinTruthy [.str ("comment"), .str (("n") ++ "ge"), fv])))) ∧
    ((("comment_xy") : String) ≠ "q" ∧
      formatFilterEntry ("comment_xy") (.num 4) =
        .ok (APIFilterParam, .str (("comment_xy") ++ ",eq," ++ jsTemplate (.num 4)))) := by
  have hxy1 : ¬ ∃ fieldName opcode, opcode ∈ filterOperators ∧
      ("comment_xy" : String) = fieldName ++ "_" ++ opcode := by
    rintro ⟨f, o, ho, hk⟩
    have h2 : o.data.length = 2 := ops_length_two o ho
    have hs : jsSliceNegFrom ("comment_xy") 2 = o := by
      rw [hk]
      have h := slice_from_append (f ++ "_") o
      rwa [h2] at h
    have hoxy : o = "xy" := by rw [← hs]; decide
    rw [hoxy] at ho
    exact absurd ho (by decide)
  have hxy2 : ¬ ∃ fieldName opcode, opcode ∈ filterOperators ∧
      ("comment_xy" : String) = fieldName ++ "_n" ++ opcode := by
    rintro ⟨f, o, ho, hk⟩
    have h2 : o.data.length = 2 := ops_length_two o ho
    have hs : jsSliceNegFrom ("comment_xy") 2 = o := by
      rw [hk]
      have h := slice_from_append (f ++ "_n") o
      rwa [h2] at h
    have hoxy : o = "xy" := by rw [← hs]; decide
    rw [hoxy] at ho
    exact absurd ho (by decide)
  exact ⟨⟨by decide, c1_suffix_classification.1 ("comment") ("cs") (.num 4) (by decide)⟩,
    ⟨by decide, c1_suffix_classification.2.1 ("comment") ("ge") (.num 4) (by decide)⟩,
    ⟨by decide,
      c1_suffix_classification.2.2 ("comment_xy") (.num 4) (by decide) hxy1 hxy2⟩⟩

/-- Counterexample for C3: at `{ comment_eq: 0 }` the compiled clause is
`comment,eq` — the value component `0` is dropped because `0` is JS-falsy —
whereas the claim demands `comment,eq,0`. -/
theorem c3_zero_value_counterexample :
    formatFilter [(("comment_eq"), JSVal.num 0)] =
      .ok [(APIFilterParam, .str ("comment,eq"))] ∧
    (("comment,eq") : String) ≠ ("comment,eq,0") :=
  ⟨rfl, by decide⟩

/-- Claim C3 as amended: for a recognized non-negated suffix with one of the
pass-through operators `cs,sw,ew,eq,lt,le,ge,gt` (and a nonempty field name),
the value component is present — as the JS string coercion of the value —
exactly when the value is JS-truthy; a falsy value (`0`, `false`, the empty
string, `null`, `undefined`) is dropped just like the null-test case,
yielding `<field>,<op>` with no value component. -/
theorem c3_value_emission_amended :
    ∀ (fieldName opcode : String) (v : JSVal), fieldName ≠ "" →
      opcode ∈ (["cs", "sw", "ew", "eq", "lt", "le", "ge", "gt"] : List String) →
      (jsTruthy v = true →
        formatFilterEntry (fieldName ++ "_" ++ opcode) v =
          .ok (APIFilterParam, .str (fieldName ++ "," ++ opcode ++ "," ++ jsTemplate v))) ∧
      (jsTruthy v = false →
        formatFilterEntry (fieldName ++ "_" ++ opcode) v =
          .ok (APIFilterParam, .str (fieldName ++ "," ++ opcode))) := by
  intro fieldName opcode v hf hop
  have hmem : opcode ∈ filterOperators := by
    have : ∀ o ∈ (["cs", "sw", "ew", "eq", "lt", "le", "ge", "gt"] : List String),
        o ∈ filterOperators := by decide
    exact this opcode hop
  have hne : opcode ≠ "bt" ∧ opcode ≠ "in" ∧ opcode ≠ "is" := by
    have : ∀ o ∈ (["cs", "sw", "ew", "eq", "lt", "le", "ge", "gt"] : List String),
        o ≠ "bt" ∧ o ≠ "in" ∧ o ≠ "is" := by decide
    exact this opcode hop
  have hone : opcode ≠ "" := by
    have : ∀ o ∈ (["cs", "sw", "ew", "eq", "lt", "le", "ge", "gt"] : List String),
        o ≠ "" := by decide
    exact this opcode hop
  have hmain := formatFilterEntry_op_suffix fieldName opcode v hmem
  rw [formatFilterArguments_passthrough opcode v hne.1 hne.2.1 hne.2.2] at hmain
  constructor
  · intro hv
    rw [hmain]
    show Except.ok (APIFilterParam, JSVal.str (joinTruthy [.str fieldName, .str opcode, v])) = _
    rw [joinTruthy_three_truthy fieldName opcode v hf hone hv]
  · intro hv
    rw [hmain]
    show Except.ok (APIFilterParam, JSVal.str (joinTruthy [.str fieldName, .str opcode, v])) = _
    rw [joinTruthy_three_falsy fieldName opcode v hf hone hv]

/-- Witness for the amended C3: `comment_eq` with the truthy value `4` keeps
the value component, with the falsy value `0` it drops it. -/
theorem c3_value_emission_amended_witness :
    (("comment") : String) ≠ "" ∧
    (("eq") : String) ∈ (["cs", "sw", "ew", "eq", "lt", "le", "ge", "gt"] : List String) ∧
    jsTruthy (.num 4) = true ∧
    formatFilterEntry (("comment") ++ "_" ++ "eq") (.num 4) =
      .ok (APIFilterParam, .str (("comment") ++ "," ++ "eq" ++ "," ++ jsTemplate (.num 4))) ∧
    jsTruthy (.num 0) = false ∧
    formatFilterEntry (("comment") ++ "_" ++ "eq") (.num 0) =
      .ok (APIFilterParam, .str (("comment") ++ "," ++ "eq")) :=
  ⟨by decide, by decide, by decide,
    (c3_value_emission_amended ("comment") ("eq") (.num 4) (by decide) (by decide)).1 (by decide),
    by decide,
    (c3_value_emission_amended ("comment") ("eq") (.num 0) (by decide) (by decide)).2 (by decide)⟩

/-- Claim C4: `{ comment_bt: [4,8,16,32] }` compiles to the clause
`comment,bt,4,8` (array elements beyond index 1 are ignored), and
`{ comment_is: v }` compiles to `comment,is` with no value component for
every supplied value `v`. -/
theorem c4_between_and_is_values :
    (formatFilter [(("comment_bt"), JSVal.arr [.num 4, .num 8, .num 16, .num 32])] =
      .ok [(APIFilterParam, .str ("comment,bt,4,8"))]) ∧
    (∀ v : JSVal, formatFilter [(("comment_is"), v)] =
      .ok [(APIFilterParam, .str ("comment,is"))]) := by
  constructor
  · rfl
  · intro v
    have hk : ("comment_is" : String) = "comment" ++ "_" ++ "is" := by decide
    have he : formatFilterEntry ("comment_is") v = .ok (APIFilterParam, .str ("comment,is")) := by
      rw [hk, formatFilterEntry_op_suffix ("comment") ("is") v (by decide),
        formatFilterArguments_is]
      rfl
    simp [formatFilter, he]

/-- Claim C5: `{ q: "Hello", title: "World" }` compiles to the pair sequence
`(search, Hello), (filter, "title,eq,World")` in that order; in general an
entry whose key is the search key `q` is emitted as one `(search, value)`
pair with the value verbatim — never as a filter parameter and never
suffix-parsed — wherever it occurs in the mapping. -/
theorem c5_search_key_routing :
    (formatFilter [(("q"), JSVal.str ("Hello")), (("title"), JSVal.str ("World"))] =
      .ok [(APISearchParam, .str ("Hello")), (APIFilterParam, .str ("title,eq,World"))]) ∧
    (∀ v : JSVal, formatFilterEntry ("q") v = .ok (APISearchParam, v)) ∧
    (∀ (pre post : List (String × JSVal)) (v : JSVal),
      formatFilter (pre ++ (("q"), v) :: post) =
        match formatFilter pre with
        | .error e => .error e
        | .ok a =>
          match formatFilter post with
          | .error e => .error e
          | .ok b => .ok (a ++ (APISearchParam, v) :: b)) := by
  refine ⟨rfl, fun v => rfl, fun pre post v => ?_⟩
  rw [formatFilter_append]
  have he : formatFilterEntry ("q") v = .ok (APISearchParam, v) := rfl
  simp only [formatFilter, he]
  cases formatFilter pre <;> cases formatFilter post <;> rfl

/-- Claim C2: a filter entry with suffix `_bt`/`_nbt` and a non-array value
makes the compiler throw a `TypeError` with exactly the message
`Array expected as filter value for filter type "between" (bt)`, and one with
suffix `_in`/`_nin` the message
`Array expected as filter value for filter type "in"` (whatever entries
follow, provided the preceding entries compile); and the error surfaces from
`getList` and `getManyReference` with an empty request trace, i.e.
synchronously before any HTTP request is issued. -/
theorem c2_array_type_errors :
    (∀ (f : String) (v : JSVal) (pre post l : List (String × JSVal)),
      isJSArray v = false → formatFilter pre = .ok l →
      formatFilter (pre ++ ((f ++ "_bt"), v) :: post) =
        .error (.typeError ("Array expected as filter value for filter type \"between\" (bt)"))) ∧
    (∀ (f : String) (v : JSVal) (pre post l : List (String × JSVal)),
      isJSArray v = false → formatFilter pre = .ok l →
      formatFilter (pre ++ ((f ++ "_nbt"), v) :: post) =
        .error (.typeError ("Array expected as filter value for filter type \"between\" (bt)"))) ∧
    (∀ (f : String) (v : JSVal) (pre post l : List (String × JSVal)),
      isJSArray v = false → formatFilter pre = .ok l →
      formatFilter (pre ++ ((f ++ "_in"), v) :: post) =
        .error (.typeError ("Array expected as filter value for filter type \"in\""))) ∧
    (∀ (f : String) (v : JSVal) (pre post l : List (String × JSVal)),
      isJSArray v = false → formatFilter pre = .ok l →
      formatFilter (pre ++ ((f ++ "_nin"), v) :: post) =
        .error (.typeError ("Array expected as filter value for filter type \"in\""))) ∧
    (∀ (apiUrl resource fieldName orderName : String) (page perPage : Int)
      (f : String) (v : JSVal) (meta : List (String × JSVal)) (http : Request → JSVal),
      isJSArray v = false →
      TreeQLDataProvider.getList apiUrl resource fieldName orderName page perPage
        [((f ++ "_bt"), v)] meta http =
        ([], .error (.typeError
          ("Array expected as filter value for filter type \"between\" (bt)")))) ∧
    (∀ (apiUrl resource target fieldName orderName : String) (page perPage : Int)
      (f : String) (v idv : JSVal) (meta : List (String × JSVal)) (http : Request → JSVal),
      isJSArray v = false → target ≠ f ++ "_in" →
      TreeQLDataProvider.getManyReference apiUrl resource idv target fieldName orderName
        page perPage [((f ++ "_in"), v)] meta http =
        ([], .error (.typeError ("Array expected as filter value for filter type \"in\"")))) := by
  refine ⟨?_, ?_, ?_, ?_, ?_, ?_⟩
  · intro f v pre post l hv hpre
    exact formatFilter_error_at pre _ v post l _ hpre (formatFilterEntry_bt_error f v hv)
  · intro f v pre post l hv hpre
    exact formatFilter_error_at pre _ v post l _ hpre (formatFilterEntry_nbt_error f v hv)
  · intro f v pre post l hv hpre
    exact formatFilter_error_at pre _ v post l _ hpre (formatFilterEntry_in_error f v hv)
  · intro f v pre post l hv hpre
    exact formatFilter_error_at pre _ v post l _ hpre (formatFilterEntry_nin_error f v hv)
  · intro apiUrl resource fieldName orderName page perPage f v meta http hv
    have hf : formatFilter [((f ++ "_bt"), v)] =
        .error (.typeError
          ("Array expected as filter value for filter type \"between\" (bt)")) := by
      simp [formatFilter, formatFilterEntry_bt_error f v hv]
    simp [TreeQLDataProvider.getList, TreeQLDataProvider.getURL, formatParams, hf, Except.map]
  · intro apiUrl resource target fieldName orderName page perPage f v idv meta http hv ht
    have hne : (f ++ "_in") ≠ target := Ne.symm ht
    have hmerge : jsMerge [((f ++ "_in"), v)] [(target, idv)] =
        [((f ++ "_in"), v), (target, idv)] := by
      simp [jsMerge, jsSet, hne]
    have hf : formatFilter (jsMerge [((f ++ "_in"), v)] [(target, idv)]) =
        .error (.typeError ("Array expected as filter value for filter type \"in\"")) := by
      rw [hmerge]
      simp [formatFilter, formatFilterEntry_in_error f v hv]
    simp [TreeQLDataProvider.getManyReference, TreeQLDataProvider.getURL, formatParams, hf,
      Except.map]

/-- Witness for C2: each conjunct applied at the concrete field `comment`,
non-array value `4`, empty surrounding entries, and (for the operations)
concrete URL pieces. -/
theorem c2_array_type_errors_witness :
    (isJSArray (JSVal.num 4) = false ∧ formatFilter [] = .ok [] ∧
      (("post") : String) ≠ ("comment") ++ "_in") ∧
    formatFilter ([] ++ ((("comment") ++ "_bt"), JSVal.num 4) :: []) =
      .error (.typeError ("Array expected as filter value for filter type \"between\" (bt)")) ∧
    formatFilter ([] ++ ((("comment") ++ "_nbt"), JSVal.num 4) :: []) =
      .error (.typeError ("Array expected as filter value for filter type \"between\" (bt)")) ∧
    formatFilter ([] ++ ((("comment") ++ "_in"), JSVal.num 4) :: []) =
      .error (.typeError ("Array expected as filter value for filter type \"in\"")) ∧
    formatFilter ([] ++ ((("comment") ++ "_nin"), JSVal.num 4) :: []) =
      .error (.typeError ("Array expected as filter value for filter type \"in\"")) ∧
    TreeQLDataProvider.getList ("http://myApi.com") ("comment") ("title") ("ASC") 1 10
      [((("comment") ++ "_bt"), JSVal.num 4)] [] (fun _ => JSVal.null) =
      ([], .error (.typeError
        ("Array expected as filter value for filter type \"between\" (bt)"))) ∧
    TreeQLDataProvider.getManyReference ("http://myApi.com") ("comment") (JSVal.num 1)
      ("post") ("title") ("ASC") 1 10 [((("comment") ++ "_in"), JSVal.num 4)] []
      (fun _ => JSVal.null) =
      ([], .error (.typeError ("Array expected as filter value for filter type \"in\""))) :=
  ⟨⟨by decide, rfl, by decide⟩,
    c2_array_type_errors.1 ("comment") (.num 4) [] [] [] (by decide) rfl,
    c2_array_type_errors.2.1 ("comment") (.num 4) [] [] [] (by decide) rfl,
    c2_array_type_errors.2.2.1 ("comment") (.num 4) [] [] [] (by decide) rfl,
    c2_array_type_errors.2.2.2.1 ("comment") (.num 4) [] [] [] (by decide) rfl,
    c2_array_type_errors.2.2.2.2.1 ("http://myApi.com") ("comment") ("title") ("ASC") 1 10
      ("comment") (.num 4) [] (fun _ => JSVal.null) (by decide),
    c2_array_type_errors.2.2.2.2.2 ("http://myApi.com") ("comment") ("post") ("title") ("ASC")
      1 10 ("comment") (.num 4) (.num 1) [] (fun _ => JSVal.null) (by decide) (by decide)⟩

/-- Counterexample for C6: when the response body carries no `results` field
(`{ records: [] }`), `getList` returns `total = undefined`, not the claimed
default `0`. -/
theorem c6_total_default_counterexample :
    (TreeQLDataProvider.getList ("http://myApi.com") ("comment") ("title") ("ASC") 1 10 [] []
      (fun _ => JSVal.obj [(("records"), JSVal.arr [])])).2 =
      .ok (JSVal.arr [], JSVal.undefined) ∧
    JSVal.undefined ≠ JSVal.num 0 :=
  ⟨rfl, fun h => JSVal.noConfusion h⟩

/-- Claim C6 as amended: for every `getList` call whose URL builds
successfully, exactly the built URL is fetched and the result envelope is
`{ data: <body.records>, total: <body.results> }` — and when the body is an
object carrying no `results` field, `total` is `undefined` (there is no
defaulting to `0`). -/
theorem c6_envelope_amended :
    (∀ (apiUrl resource fieldName orderName : String) (page perPage : Int)
      (filter meta : List (String × JSVal)) (http : Request → JSVal) (url : String),
      TreeQLDataProvider.getURL apiUrl resource
        { rest := [(("order"), fieldName ++ "," ++ orderName),
                   (("page"), toString page ++ "," ++ toString perPage)],
          filter := some filter, meta := meta } = .ok url →
      TreeQLDataProvider.getList apiUrl resource fieldName orderName page perPage
        filter meta http =
        ([httpGet url],
         .ok (jsGet (http (httpGet url)) ("records"), jsGet (http (httpGet url)) ("results")))) ∧
    (∀ fields : List (String × JSVal), (∀ p ∈ fields, p.1 ≠ "results") →
      jsGet (.obj fields) ("results") = .undefined) := by
  constructor
  · intro apiUrl resource fieldName orderName page perPage filter meta http url hurl
    simp only [TreeQLDataProvider.getList, hurl]
  · intro fields h
    exact jsGet_obj_absent fields ("results") h

/-- Witness for the amended C6: a concrete `getList` call whose response
carries a `records` array but no `results` count. -/
theorem c6_envelope_amended_witness :
    TreeQLDataProvider.getURL ("http://myApi.com") ("comment")
      { rest := [(("order"), ("title") ++ "," ++ "ASC"),
                 (("page"), toString (1 : Int) ++ "," ++ toString (10 : Int))],
        filter := some [], meta := [] } =
      .ok ("http://myApi.com/records/comment?order=title,ASC&page=1,10") ∧
    TreeQLDataProvider.getList ("http://myApi.com") ("comment") ("title") ("ASC") 1 10 [] []
      (fun _ => JSVal.obj [(("records"), JSVal.arr [])]) =
      ([httpGet ("http://myApi.com/records/comment?order=title,ASC&page=1,10")],
       .ok (jsGet ((fun _ => JSVal.obj [(("records"), JSVal.arr [])])
              (httpGet ("http://myApi.com/records/comment?order=title,ASC&page=1,10")))
            ("records"),
          jsGet ((fun _ => JSVal.obj [(("records"), JSVal.arr [])])
              (httpGet ("http://myApi.com/records/comment?order=title,ASC&page=1,10")))
            ("results"))) ∧
    (∀ p ∈ [(("records"), JSVal.arr [])], p.1 ≠ "results") ∧
    jsGet (.obj [(("records"), JSVal.arr [])]) ("results") = .undefined :=
  ⟨rfl,
    c6_envelope_amended.1 ("http://myApi.com") ("comment") ("title") ("ASC") 1 10 [] []
      (fun _ => JSVal.obj [(("records"), JSVal.arr [])])
      ("http://myApi.com/records/comment?order=title,ASC&page=1,10") rfl,
    by decide,
    c6_envelope_amended.2 [(("records"), JSVal.arr [])] (by decide)⟩

/-- Claim C7: with order `length,DESC`, page `1,25` and filter `{ id: 4 }`,
the URL builder yields exactly
`http://myApi.com/records/comment?order=length,DESC&page=1,25&filter=id,eq,4`
(for the provider constructed with base URL `http://myApi.com/`): the query
string is the `URLSearchParams` serialization of order, page and the compiled
filter pairs, given one `decodeURIComponent` pass so that the commas are
literal; and a `getList` call with those parameters requests exactly that
URL. -/
theorem c7_list_url_building :
    (TreeQLDataProvider.getURL (normalizeApiUrl ("http://myApi.com/")) ("comment")
      { rest := [(("order"), ("length,DESC")), (("page"), ("1,25"))],
        filter := some [(("id"), JSVal.num 4)] } =
      .ok ("http://myApi.com/records/comment?order=length,DESC&page=1,25&filter=id,eq,4")) ∧
    (∀ http : Request → JSVal,
      (TreeQLDataProvider.getList (normalizeApiUrl ("http://myApi.com/")) ("comment")
        ("length") ("DESC") 1 25 [(("id"), JSVal.num 4)] [] http).1 =
        [httpGet
          ("http://myApi.com/records/comment?order=length,DESC&page=1,25&filter=id,eq,4")]) :=
  ⟨rfl, fun _ => rfl⟩

/-- Claim C8: an `update` call (with a truthy id and no meta) issues exactly
one HTTP request — a PUT to `<base>/records/<resource>/<id>` whose body is
the JSON of the changed fields only — and returns
`{ data: { id, ...previousData, ...data } }` synthesized client-side: the
result does not depend on the HTTP oracle at all, so no additional fetch of
the record takes place. -/
theorem c8_update_single_put :
    ∀ (apiUrl resource : String) (idv : JSVal) (data previousData : List (String × JSVal))
      (http : Request → JSVal), jsTruthy idv = true →
      TreeQLDataProvider.update apiUrl resource idv data previousData [] http =
        ([⟨apiUrl ++ "/records/" ++ resource ++ "/" ++ jsTemplate idv, ("PUT"),
           some (jsonStringify (.obj data))⟩],
         .ok (jsMerge (jsMerge [(("id"), idv)] previousData) data)) := by
  intro apiUrl resource idv data previousData http h
  have hurl := getURL_truthy_id apiUrl resource idv [] h
  rw [show assembleParams [] [] [] = "" from rfl] at hurl
  simp only [TreeQLDataProvider.update, hurl]
  simp [String.append_assoc]

/-- Witness for C8: a concrete update of `comment/1` changing only `title`. -/
theorem c8_update_single_put_witness :
    jsTruthy (.num 1) = true ∧
    TreeQLDataProvider.update ("http://myApi.com") ("comment") (.num 1)
      [(("title"), JSVal.str ("New Title"))]
      [(("id"), JSVal.num 1), (("content"), JSVal.str ("c"))] [] (fun _ => JSVal.null) =
      ([⟨("http://myApi.com") ++ "/records/" ++ "comment" ++ "/" ++ jsTemplate (.num 1),
         ("PUT"),
         some (jsonStringify (.obj [(("title"), JSVal.str ("New Title"))]))⟩],
       .ok (jsMerge (jsMerge [(("id"), JSVal.num 1)]
              [(("id"), JSVal.num 1), (("content"), JSVal.str ("c"))])
            [(("title"), JSVal.str ("New Title"))])) :=
  ⟨by decide,
    c8_update_single_put ("http://myApi.com") ("comment") (.num 1)
      [(("title"), JSVal.str ("New Title"))]
      [(("id"), JSVal.num 1), (("content"), JSVal.str ("c"))] (fun _ => JSVal.null)
      (by decide)⟩

/-- Claim C9: `update` and `delete` return `{ id, ...previousData }`-shaped
records even when `previousData` is empty: `delete` returns
`{ data: { id, ...previousData } }`, degrading to `{ data: { id } }` without
previous data, and `update` returns `{ data: { id, ...previousData, ...data } }`,
degrading to `{ data: { id, ...data } }`. -/
theorem c9_update_delete_degradation :
    ∀ (apiUrl resource : String) (idv : JSVal) (data previousData meta : List (String × JSVal))
      (http : Request → JSVal),
      ((TreeQLDataProvider.delete apiUrl resource idv previousData meta http).2 =
        .ok (jsMerge [(("id"), idv)] previousData)) ∧
      ((TreeQLDataProvider.delete apiUrl resource idv [] meta http).2 =
        .ok [(("id"), idv)]) ∧
      ((TreeQLDataProvider.update apiUrl resource idv data previousData meta http).2 =
        .ok (jsMerge (jsMerge [(("id"), idv)] previousData) data)) ∧
      ((TreeQLDataProvider.update apiUrl resource idv data [] meta http).2 =
        .ok (jsMerge [(("id"), idv)] data)) :=
  fun _ _ _ _ _ _ _ => ⟨rfl, rfl, rfl, rfl⟩

/-- Claim C10: the record-selector path segment `/<id>` is appended only for
a truthy identifier; for `0` or the empty string, `getURL` (with no other
parameters) yields the collection URL `<base>/records/<resource>`, and a
`getOne` call with such an id requests the collection URL. -/
theorem c10_truthy_id_segment :
    (∀ (apiUrl resource : String) (idv : JSVal), jsTruthy idv = true →
      TreeQLDataProvider.getURL apiUrl resource { id := some idv } =
        .ok (apiUrl ++ "/records/" ++ resource ++ "/" ++ jsTemplate idv)) ∧
    (∀ (apiUrl resource : String) (idv : JSVal), jsTruthy idv = false →
      TreeQLDataProvider.getURL apiUrl resource { id := some idv } =
        .ok (apiUrl ++ "/records/" ++ resource)) ∧
    (∀ (apiUrl resource : String) (idv : JSVal) (http : Request → JSVal),
      jsTruthy idv = false →
      (TreeQLDataProvider.getOne apiUrl resource idv [] http).1 =
        [httpGet (apiUrl ++ "/records/" ++ resource)]) := by
  refine ⟨?_, ?_, ?_⟩
  · intro apiUrl resource idv h
    have hurl := getURL_truthy_id apiUrl resource idv [] h
    rw [show assembleParams [] [] [] = "" from rfl] at hurl
    rw [hurl]
    simp [String.append_assoc]
  · intro apiUrl resource idv h
    have hurl := getURL_falsy_id apiUrl resource idv [] h
    rw [show assembleParams [] [] [] = "" from rfl] at hurl
    rw [hurl]
    simp
  · intro apiUrl resource idv http h
    have hurl := getURL_falsy_id apiUrl resource idv [] h
    rw [show assembleParams [] [] [] = "" from rfl] at hurl
    simp only [TreeQLDataProvider.getOne, hurl]
    simp

/-- Witness for C10: the truthy id `1` keeps its record segment, the falsy
ids `0` and `""` fall back to the collection URL. -/
theorem c10_truthy_id_segment_witness :
    (jsTruthy (.num 1) = true ∧
      TreeQLDataProvider.getURL ("http://myApi.com") ("comment") { id := some (.num 1) } =
        .ok (("http://myApi.com") ++ "/records/" ++ "comment" ++ "/" ++ jsTemplate (.num 1))) ∧
    (jsTruthy (.num 0) = false ∧
      TreeQLDataProvider.getURL ("http://myApi.com") ("comment") { id := some (.num 0) } =
        .ok (("http://myApi.com") ++ "/records/" ++ "comment")) ∧
    (jsTruthy (.str ("")) = false ∧
      (TreeQLDataProvider.getOne ("http://myApi.com") ("comment") (.str ("")) []
        (fun _ => JSVal.null)).1 =
        [httpGet (("http://myApi.com") ++ "/records/" ++ "comment")]) :=
  ⟨⟨by decide, c10_truthy_id_segment.1 ("http://myApi.com") ("comment") (.num 1) (by decide)⟩,
    ⟨by decide, c10_truthy_id_segment.2.1 ("http://myApi.com") ("comment") (.num 0) (by decide)⟩,
    ⟨by decide,
      c10_truthy_id_segment.2.2 ("http://myApi.com") ("comment") (.str ("")) (fun _ => JSVal.null)
        (by decide)⟩⟩
